import Mathlib

/-!
Verification of the MIOpen convolution Find / immediate-mode / invoker-cache
subsystem, shallowly embedded from the C++ sources.

Times are modelled as rationals (`ℚ`): every operation the code performs on
`float` times in the verified fragments is an order comparison or an exact
division, so rounding plays no role.  Tensor descriptors, solver-registry
entries and the invoker cache are modelled as explicit records and
association lists; `MIOPEN_THROW` becomes an `Except` error carrying the
status and the thrown message.  Helpers whose definitions live outside the
available sources (`float_equal`, `PerfField::operator<`, the handle's
invoker cache) are modelled from the spec and marked as such.
-/

deriving instance DecidableEq for Except

namespace MIOpen

/-- Error taxonomy of `MIOPEN_THROW` as observed in the sources: a status
plus the thrown message (a throw without an explicit status surfaces as
`unknown`). -/
inductive MiopenErr where
  | badParm (msg : String)
  | notImplemented (msg : String)
  | gpuOperationsSkipped (msg : String)
  | unknown (msg : String)
deriving DecidableEq, Repr

/-- Record `miopenConvSolution_t`: estimated time, workspace size, solver id
(`solver::Id::Value()`, a number) and algorithm (numbered). -/
structure ConvSolution where
  time : ℚ
  workspace_size : ℕ
  solution_id : ℕ
  algorithm : ℕ
deriving DecidableEq, Repr

/-- Function `SolutionTimeComparator::operator()` transcribed from the
source: both negative → `!(lhs.time < rhs.time)`; positive vs negative →
`true`; negative vs positive → `false`; otherwise `lhs.time < rhs.time`. -/
def solutionTimeComp (lhs rhs : ConvSolution) : Bool :=
  if lhs.time < 0 ∧ rhs.time < 0 then !(decide (lhs.time < rhs.time))
  else if 0 < lhs.time ∧ rhs.time < 0 then true
  else if lhs.time < 0 ∧ 0 < rhs.time then false
  else decide (lhs.time < rhs.time)

/-- A solution with a negative (coarse-estimate) time, used to exhibit the
comparator's behaviour on the diagonal. -/
def negEstimateSol : ConvSolution := ⟨-1, 0, 0, 0⟩

/-- Relation under which `std::sort(..., SolutionTimeComparator)` leaves
its output: an element may precede another unless the comparator orders it
strictly after.  `std::sort`'s choice among equivalent elements is
unspecified; insertion sort with this relation models one admissible
outcome. -/
def solutionNotAfter (a b : ConvSolution) : Prop := solutionTimeComp b a = false

instance : DecidableRel solutionNotAfter :=
  fun a b => inferInstanceAs (Decidable (_ = _))

/-- Sorting with `SolutionTimeComparator` as done by `GetSolutionsFallback`
and `GetSolutions`. -/
def sortSolutions (l : List ConvSolution) : List ConvSolution :=
  List.insertionSort solutionNotAfter l

/-! ### Tensor descriptors and group-count validation -/

/-- Tensor layouts distinguished by `ValidateGroupCount`
(`GetLayout_t()`). -/
inductive TensorLayout where
  | NCHW
  | NHWC
  | NCHWc4
  | NCHWc8
  | CHWNc4
  | CHWNc8
deriving DecidableEq, Repr

/-- Element types distinguished by the validated entry points. -/
inductive DataType where
  | float
  | half
  | bfloat16
  | int8
  | int8x4
  | int32
  | double
deriving DecidableEq, Repr

/-- Tensor descriptor as consulted by the verified fragments: lengths
(`GetLengths()`), packedness (`IsPacked()`, kept abstract as the strides
are never read), element type (`GetType()`) and layout (`GetLayout_t()`). -/
structure TensorDesc where
  lens : List ℕ
  packed : Bool
  ty : DataType
  layout : TensorLayout
deriving DecidableEq, Repr

/-- Method `GetSize()`: the number of dimensions. -/
def TensorDesc.size (d : TensorDesc) : ℕ := d.lens.length

/-- Indexing `GetLengths()[i]`. -/
def TensorDesc.len (d : TensorDesc) (i : ℕ) : ℕ := d.lens.getD i 0

/-- Layouts grouped with `miopenTensorNCHW` by `ValidateGroupCount`
(channel-first filter layouts). -/
def isChannelFirstLayout : TensorLayout → Bool
  | .NCHW | .NCHWc4 | .NCHWc8 => true
  | _ => false

/-- Layouts `miopenTensorCHWNc4` / `miopenTensorCHWNc8` (channel-last
vectorized filter layouts). -/
def isCHWNcLayout : TensorLayout → Bool
  | .CHWNc4 | .CHWNc8 => true
  | _ => false

/-- Function `ValidateGroupCount` transcribed from the source: one check
block for `group_count == 1` and two sequential check blocks for
`group_count > 1`. -/
def validateGroupCount (xDesc wDesc : TensorDesc) (groupCount : ℕ) :
    Except MiopenErr Unit :=
  if groupCount = 1 ∧
      ((isChannelFirstLayout wDesc.layout ∧ xDesc.len 1 ≠ wDesc.len 1) ∨
       (isCHWNcLayout wDesc.layout ∧ xDesc.len 1 ≠ wDesc.len 0)) then
    .error (.badParm "Invalid filter channel number")
  else if 1 < groupCount then
    if xDesc.len 1 % groupCount ≠ 0 ∨ groupCount > xDesc.len 1 ∨
        (isChannelFirstLayout wDesc.layout ∧
          (wDesc.len 0 % groupCount ≠ 0 ∨ groupCount > wDesc.len 0)) ∨
        (isCHWNcLayout wDesc.layout ∧
          (wDesc.len 3 % groupCount ≠ 0 ∨ groupCount > wDesc.len 3)) then
      .error (.badParm "Invalid group number")
    else if (isChannelFirstLayout wDesc.layout ∧
          xDesc.len 1 / groupCount ≠ wDesc.len 1) ∨
        isCHWNcLayout wDesc.layout then
      .error (.badParm "Invalid filter channel number")
    else .ok ()
  else .ok ()

/-! ### Immediate-mode fallback (WTI tier) -/

/-- One convolution-registry entry as seen by the WTI fallback tier of
`GetSolutionsFallback`: the solver's id and algorithm together with the
answers of the queries the loop makes (`IsAlgorithmDisabled`, `IsEmpty`,
`IsDynamic`, `IsApplicable`, `GetWti`, `GetWorkspaceSize`). -/
structure SolverRegEntry where
  id : ℕ
  algo : ℕ
  algoDisabled : Bool
  isEmpty : Bool
  isDynamic : Bool
  isApplicable : Bool
  wti : ℚ
  workspace : ℕ
deriving DecidableEq, Repr

/-- Lambda `wti2time` from `GetSolutionsFallback`: non-positive WTIs are
returned as is (avoiding division), positive WTIs give `10.0 / wti`. -/
def wti2time (wti : ℚ) : ℚ := if wti ≤ 0 then wti else 10 / wti

/-- The WTI-tier candidate loop of `GetSolutionsFallback`: skip disabled
algorithms, empty / non-dynamic / inapplicable solvers, and solvers with
`wti < 0`; each surviving solver contributes a candidate with synthetic
time `wti2time wti`. -/
def wtiFallbackInterim (registry : List SolverRegEntry) : List ConvSolution :=
  registry.filterMap fun s =>
    if s.algoDisabled then none
    else if s.isEmpty ∨ ¬s.isDynamic ∨ ¬s.isApplicable then none
    else if s.wti < 0 then none
    else some ⟨wti2time s.wti, s.workspace, s.id, s.algo⟩

/-- Method `ConvolutionDescriptor::GetSolutionsFallback`, in a build without the
compiled-in TunaNet predictor tier (`MIOPEN_ENABLE_AI_IMMED_MODE_FALLBACK`
off), so only the WTI tier runs: check the environment kill switch,
validate group count, build the WTI candidates, sort them with
`SolutionTimeComparator` and truncate to `maxSolutionCount`. -/
def getSolutionsFallback (envFallbackDisabled : Bool)
    (inDesc weightsDesc : TensorDesc) (groupCount : ℕ)
    (registry : List SolverRegEntry) (maxSolutionCount : ℕ) :
    Except MiopenErr (List ConvSolution) :=
  if envFallbackDisabled then .ok []
  else
    match validateGroupCount inDesc weightsDesc groupCount with
    | .error e => .error e
    | .ok _ =>
        .ok ((sortSolutions (wtiFallbackInterim registry)).take maxSolutionCount)

/-! ### PerfField and ShrinkToFind10Results -/

/-- Record `PerfField`: algorithm name, solver id string, time,
workspace. -/
structure PerfField where
  algorithm : String
  solver_id : String
  time : ℚ
  workspace : ℕ
deriving DecidableEq, Repr

/-- Modelled from the spec: `PerfField::operator<` (its header is not
among the sources) orders by `time`; the spec's Find post-processing step
is "sort by time ascending".  This is the non-strict form of that
order, under which `std::sort`'s output is sorted. -/
def perfFieldLE (a b : PerfField) : Prop := a.time ≤ b.time

instance : DecidableRel perfFieldLE :=
  fun a b => inferInstanceAs (Decidable (_ ≤ _))

instance : IsTotal PerfField perfFieldLE := ⟨fun a b => le_total a.time b.time⟩

instance : IsTrans PerfField perfFieldLE := ⟨fun _ _ _ => le_trans⟩

/-- The accumulation loop of `ShrinkToFind10Results`: walk the sorted list
and append each entry to `out` unless `out` already holds an entry with
the same algorithm. -/
def shrinkLoop : List PerfField → List PerfField → List PerfField
  | out, [] => out
  | out, f :: rest =>
      if out.any fun o => decide (o.algorithm = f.algorithm) then
        shrinkLoop out rest
      else shrinkLoop (out ++ [f]) rest

/-- Function `ShrinkToFind10Results`: sort by time ascending, then keep
only the first (best) entry of each algorithm. -/
def shrinkToFind10Results (found : List PerfField) : List PerfField :=
  shrinkLoop [] (List.insertionSort perfFieldLE found)

/-! ### FindConvolution -/

/-- Find-mode and debug-environment flags consulted by
`FindConvolution`. -/
structure FindModeCtx where
  isFast : Bool
  isHybrid : Bool
  forceImmedFallback : Bool
  debugCompileOnly : Bool
deriving DecidableEq, Repr

/-- Observable outcome of `FindConvolution`: the returned `PerfField`s,
whether the find-db path (`UserFindDbRecord::TryLoad`) was consulted, and
the solver ids handed to `CompileSolution`. -/
structure FindOutcome where
  results : List PerfField
  usedFindDb : Bool
  compileCalls : List ℕ
deriving DecidableEq, Repr

/-- Function `FindConvolution` transcribed from the source.  `sols` is the
result of `GetSolutions(ctx, problem, 1, &fallback)` (queried only in
Fast/Hybrid mode) and `fallback` its out-parameter; `findDbResults` is
what the `UserFindDbRecord::TryLoad` path would produce; `validId`,
`algoOf` and `idStr` abstract `solver::Id::IsValid`, `GetAlgo(direction)`
and `ToString`. -/
def findConvolution (fm : FindModeCtx) (validId : ℕ → Bool)
    (algoOf idStr : ℕ → String) (sols : List ConvSolution) (fallback : Bool)
    (findDbResults : List PerfField) : Except MiopenErr FindOutcome :=
  let sol : Option ConvSolution :=
    if (fm.isFast ∨ fm.isHybrid) ∧ ¬sols.isEmpty ∧
        (¬(fm.isHybrid ∧ fallback) ∨ fm.forceImmedFallback) then
      sols.head?
    else none
  match sol with
  | some s =>
      if ¬ validId s.solution_id then
        .error (.badParm ("solver_id = " ++ idStr s.solution_id))
      else if fm.debugCompileOnly then
        .error (.gpuOperationsSkipped
          "MIOPEN_DEBUG_COMPILE_ONLY is enabled, escaping forward convolution. Search skipped.")
      else
        .ok ⟨shrinkToFind10Results
              [⟨algoOf s.solution_id, idStr s.solution_id, s.time, s.workspace_size⟩],
            false, [s.solution_id]⟩
  | none =>
      if fm.debugCompileOnly then
        .error (.gpuOperationsSkipped
          "MIOPEN_DEBUG_COMPILE_ONLY is enabled, escaping forward convolution. Search skipped.")
      else
        .ok ⟨shrinkToFind10Results findDbResults, true, []⟩

/-! ### Invoker cache -/

/-- Invoker-cache key: a solver-id string or an algorithm name.  Modelled
from the spec: the handle's `RegisterInvoker` / `GetInvoker` cache is an
external collaborator; per the spec an invoker is registered under the
(NetworkConfig, SolverId) key and the (NetworkConfig, AlgorithmName) key,
and lookups use one of the two. -/
inductive InvKey where
  | bySolver (idS : String)
  | byAlgo (algo : String)
deriving DecidableEq, Repr

/-- The handle's invoker cache: (network config, key) ↦ invoker.  Network
configs and invokers are abstracted as numbers. -/
abbrev InvokerCache := List ((ℕ × InvKey) × ℕ)

/-- Lookup `Handle::GetInvoker` on the modelled cache. -/
def cacheLookup (c : InvokerCache) (config : ℕ) (k : InvKey) : Option ℕ :=
  (c.find? fun e => decide (e.1 = (config, k))).map (·.2)

/-- Registration `Handle::RegisterInvoker invoker config solver_id_string algo`:
register the invoker under both keys. -/
def registerInvoker (c : InvokerCache) (invoker config : ℕ)
    (idS algo : String) : InvokerCache :=
  ((config, .bySolver idS), invoker) :: ((config, .byAlgo algo), invoker) :: c

/-- Function `PrepareInvoker`: compile the solver's solution (`compile`
abstracts `FindSolution` plus `Handle::PrepareInvoker`, a pure function of
the config and solver) and register the invoker under the solver-id string
and the algorithm name. -/
def prepareInvoker (compile : ℕ → ℕ → ℕ) (c : InvokerCache)
    (config sid : ℕ) (idStr algoOf : ℕ → String) : ℕ × InvokerCache :=
  let invoker := compile config sid
  (invoker, registerInvoker c invoker config (idStr sid) (algoOf sid))

/-- Function `LoadOrPrepareInvoker`: look the invoker up by solver id and
compile only on a miss.  The `Bool` records whether the compile path was
taken. -/
def loadOrPrepareInvoker (compile : ℕ → ℕ → ℕ) (c : InvokerCache)
    (config sid : ℕ) (idStr algoOf : ℕ → String) : ℕ × InvokerCache × Bool :=
  match cacheLookup c config (.bySolver (idStr sid)) with
  | some invoker => (invoker, c, false)
  | none =>
      let r := prepareInvoker compile c config sid idStr algoOf
      (r.1, r.2, true)

/-! ### Execution entry points -/

/-- Record `ConvTensors` as consumed by `ValidateConvTensors`: the three
descriptors plus whether each buffer pointer is null. -/
structure ConvTensors where
  xDesc : TensorDesc
  xNull : Bool
  wDesc : TensorDesc
  wNull : Bool
  yDesc : TensorDesc
  yNull : Bool
deriving DecidableEq, Repr

/-- Function `ValidateConvTensors` transcribed from the source: null
buffers, mismatched dimension counts, mismatched trivial types (unless the
input is int8 / int8x4) and fewer than 3 input dimensions are all
`miopenStatusBadParm`. -/
def validateConvTensors (t : ConvTensors) : Except MiopenErr Unit :=
  if (t.xNull ∨ t.wNull ∨ t.yNull) ∨
      (t.xDesc.size ≠ t.yDesc.size ∨ t.xDesc.size ≠ t.wDesc.size) ∨
      (t.xDesc.ty ≠ t.yDesc.ty ∧ t.xDesc.ty ≠ .int8 ∧ t.xDesc.ty ≠ .int8x4) ∨
      t.xDesc.size < 3 then
    .error (.badParm "")
  else .ok ()

/-- Modelled from the spec: `float_equal` (its header is not among the
sources) is the exact comparison — "alpha must equal 1.0 and beta must
equal 0.0 bit-for-bit (exact float compare)". -/
def floatEqual (a b : ℚ) : Prop := a = b

instance : ∀ a b, Decidable (floatEqual a b) :=
  fun a b => inferInstanceAs (Decidable (a = b))

/-- Function `ValidateAlphaBeta` from the source: anything other than
alpha = 1 and beta = 0 is `miopenStatusNotImplemented`. -/
def validateAlphaBeta (alpha beta : ℚ) : Except MiopenErr Unit :=
  if ¬ floatEqual alpha 1 ∨ ¬ floatEqual beta 0 then
    .error (.notImplemented "Only alpha=1 and beta=0 is supported")
  else .ok ()

/-- Algorithm families named by the entry-point `algo` arguments. -/
inductive ConvAlgo where
  | gemm
  | direct
  | fft
  | winograd
  | implicitGemm
deriving DecidableEq, Repr

/-- Inputs of `ConvolutionDescriptor::ConvolutionForward` (and of
`ConvolutionForwardImmediate`, which ignores `alpha`, `beta` and `algo`):
`config` abstracts `problem.BuildConfKey()` and `algoName` the string
`ConvolutionAlgoToDirectionalString(algo, Forward)`. -/
structure ConvFwdInput where
  alpha : ℚ
  beta : ℚ
  algo : ConvAlgo
  algoName : String
  tensors : ConvTensors
  groupCount : ℕ
  config : ℕ
deriving DecidableEq, Repr

/-- Method `ConvolutionDescriptor::ConvolutionForward` with numeric checking
disabled (the default), so the check-numerics wrapper runs the worker
directly.  The returned number is the invoker that executes; every
`.error` outcome happens before any kernel runs. -/
def convolutionForward (input : ConvFwdInput) (cache : InvokerCache) :
    Except MiopenErr ℕ :=
  let t := input.tensors
  if ¬(t.xDesc.packed ∧ t.wDesc.packed ∧ t.yDesc.packed) then
    .error (.notImplemented "Only fully packed tensors are supported")
  else match validateConvTensors t with
  | .error e => .error e
  | .ok _ =>
    match validateAlphaBeta input.alpha input.beta with
    | .error e => .error e
    | .ok _ =>
      if input.algo ≠ .gemm ∧ t.xDesc.ty = .int8x4 then .error (.badParm "")
      else match validateGroupCount t.xDesc t.wDesc input.groupCount with
      | .error e => .error e
      | .ok _ =>
        match cacheLookup cache input.config (.byAlgo input.algoName) with
        | some invoker => .ok invoker
        | none =>
            .error (.unknown
              "No invoker was registered for convolution forward. Was find executed?")

/-- Inputs of `ConvolutionDescriptor::ConvolutionBackwardData` (and of
`ConvolutionBackwardImmediate`, which ignores `alpha`, `beta` and
`algo`). -/
structure ConvBwdInput where
  alpha : ℚ
  beta : ℚ
  algo : ConvAlgo
  algoName : String
  dyDesc : TensorDesc
  dyNull : Bool
  wDesc : TensorDesc
  wNull : Bool
  dxDesc : TensorDesc
  dxNull : Bool
  groupCount : ℕ
  config : ℕ
deriving DecidableEq, Repr

/-- Conversion `ConvBwdTensors → ConvTensors` (x := dx, w := w, y := dy);
the tensors header is not among the sources, the mapping follows the
argument roles. -/
def ConvBwdInput.asConvTensors (i : ConvBwdInput) : ConvTensors :=
  ⟨i.dxDesc, i.dxNull, i.wDesc, i.wNull, i.dyDesc, i.dyNull⟩

/-- Method `ConvolutionDescriptor::ConvolutionBackwardData` with numeric checking
disabled. -/
def convolutionBackwardData (input : ConvBwdInput) (cache : InvokerCache) :
    Except MiopenErr ℕ :=
  if ¬(input.dyDesc.packed ∧ input.wDesc.packed ∧ input.dxDesc.packed) then
    .error (.notImplemented "Only fully packed tensors are supported")
  else match validateConvTensors input.asConvTensors with
  | .error e => .error e
  | .ok _ =>
    match validateAlphaBeta input.alpha input.beta with
    | .error e => .error e
    | .ok _ =>
      if input.dyDesc.len 1 ≠ input.wDesc.len 0 then .error (.badParm "")
      else match validateGroupCount input.dxDesc input.wDesc input.groupCount with
      | .error e => .error e
      | .ok _ =>
        match cacheLookup cache input.config (.byAlgo input.algoName) with
        | some invoker => .ok invoker
        | none =>
            .error (.unknown
              "No invoker was registered for convolution backward. Was find executed?")

/-- Inputs of `ConvolutionDescriptor::ConvolutionBackwardWeights` (and of
`ConvolutionWrwImmediate`, which ignores `alpha`, `beta` and `algo`). -/
structure ConvWrwInput where
  alpha : ℚ
  beta : ℚ
  algo : ConvAlgo
  algoName : String
  dyDesc : TensorDesc
  dyNull : Bool
  xDesc : TensorDesc
  xNull : Bool
  dwDesc : TensorDesc
  dwNull : Bool
  groupCount : ℕ
  config : ℕ
deriving DecidableEq, Repr

/-- Conversion `ConvWrwTensors → ConvTensors` (x := x, w := dw, y := dy). -/
def ConvWrwInput.asConvTensors (i : ConvWrwInput) : ConvTensors :=
  ⟨i.xDesc, i.xNull, i.dwDesc, i.dwNull, i.dyDesc, i.dyNull⟩

/-- Method `ConvolutionDescriptor::ConvolutionBackwardWeights` with numeric
checking disabled.  Note: unlike Forward and BackwardData, the source has
no packed-tensor check here. -/
def convolutionBackwardWeights (input : ConvWrwInput) (cache : InvokerCache) :
    Except MiopenErr ℕ :=
  match validateConvTensors input.asConvTensors with
  | .error e => .error e
  | .ok _ =>
    match validateAlphaBeta input.alpha input.beta with
    | .error e => .error e
    | .ok _ =>
      if input.xDesc.ty = .int8 then .error (.badParm "")
      else match validateGroupCount input.xDesc input.dwDesc input.groupCount with
      | .error e => .error e
      | .ok _ =>
        match cacheLookup cache input.config (.byAlgo input.algoName) with
        | some invoker => .ok invoker
        | none =>
            .error (.unknown
              "No invoker was registered for convolution weights. Was find executed?")

/-- Method `ConvolutionDescriptor::ConvolutionForwardImmediate` with numeric
checking disabled: validate tensors (no packedness check in the source),
check solver-id validity, then resolve or compile through
`LoadOrPrepareInvoker` and run.  Returns the invoker that ran and the
updated cache. -/
def convolutionForwardImmediate (input : ConvFwdInput) (validId : Bool)
    (compile : ℕ → ℕ → ℕ) (sid : ℕ) (idStr algoOf : ℕ → String)
    (cache : InvokerCache) : Except MiopenErr (ℕ × InvokerCache) :=
  match validateConvTensors input.tensors with
  | .error e => .error e
  | .ok _ =>
    if ¬ validId then .error (.badParm "")
    else
      let r := loadOrPrepareInvoker compile cache input.config sid idStr algoOf
      .ok (r.1, r.2.1)

/-- Method `ConvolutionDescriptor::ConvolutionBackwardImmediate` with numeric
checking disabled (no packedness check in the source). -/
def convolutionBackwardImmediate (input : ConvBwdInput)
    (compile : ℕ → ℕ → ℕ) (sid : ℕ) (idStr algoOf : ℕ → String)
    (cache : InvokerCache) : Except MiopenErr (ℕ × InvokerCache) :=
  match validateConvTensors input.asConvTensors with
  | .error e => .error e
  | .ok _ =>
    if input.dyDesc.len 1 ≠ input.wDesc.len 0 then .error (.badParm "")
    else match validateGroupCount input.dxDesc input.wDesc input.groupCount with
    | .error e => .error e
    | .ok _ =>
        let r := loadOrPrepareInvoker compile cache input.config sid idStr algoOf
        .ok (r.1, r.2.1)

/-- Method `ConvolutionDescriptor::ConvolutionWrwImmediate` with numeric checking
disabled (no packedness check in the source). -/
def convolutionWrwImmediate (input : ConvWrwInput)
    (compile : ℕ → ℕ → ℕ) (sid : ℕ) (idStr algoOf : ℕ → String)
    (cache : InvokerCache) : Except MiopenErr (ℕ × InvokerCache) :=
  match validateConvTensors input.asConvTensors with
  | .error e => .error e
  | .ok _ =>
    if input.xDesc.ty = .int8 then .error (.badParm "")
    else match validateGroupCount input.xDesc input.dwDesc input.groupCount with
    | .error e => .error e
    | .ok _ =>
        let r := loadOrPrepareInvoker compile cache input.config sid idStr algoOf
        .ok (r.1, r.2.1)

/-! ### Find-db GetSolutions -/

/-- Registry-side predicates consulted by the find-db `GetSolutions` path:
`solver::Id::IsValid`, `IsAlgorithmDisabled` and
`GetSolver().IsApplicable`. -/
structure SolverEnv where
  validId : ℕ → Bool
  algoDisabled : ℕ → Bool
  applicable : ℕ → Bool

/-- One find-db record entry: (solver id, perf data), with the algorithm
string already resolved to its numeric algorithm by `algo_resolver`. -/
structure FdbEntry where
  solverId : ℕ
  algo : ℕ
  time : ℚ
  workspace : ℕ
deriving DecidableEq, Repr

/-- Free function `GetSolutions` (find-db path) transcribed from the
source: empty record → empty result; otherwise collect the entries whose
algorithm is not disabled and whose solver id is valid, sort them with
`SolutionTimeComparator`, truncate to `maxSolutionCount`, and only then
drop inapplicable solvers. -/
def getSolutionsFindDb (env : SolverEnv) (record : List FdbEntry)
    (maxSolutionCount : ℕ) : List ConvSolution :=
  if record.isEmpty then []
  else
    let interim := record.filterMap fun e =>
      if env.algoDisabled e.algo then none
      else if ¬ env.validId e.solverId then none
      else some ⟨e.time, e.workspace, e.solverId, e.algo⟩
    ((sortSolutions interim).take maxSolutionCount).filter
      fun s => env.applicable s.solution_id

/-! ### Concrete instances used by counterexamples and witnesses -/

/-- A 4-channel NCHW input descriptor. -/
def xDescStd : TensorDesc := ⟨[1, 4, 1, 1], true, .float, .NCHW⟩

/-- An 8-output-channel, 4-input-channel NCHW filter descriptor. -/
def wDescStd : TensorDesc := ⟨[8, 4, 1, 1], true, .float, .NCHW⟩

/-- An 8-channel NCHW output descriptor. -/
def yDescStd : TensorDesc := ⟨[1, 8, 1, 1], true, .float, .NCHW⟩

/-- A grouped CHWNc4 filter descriptor with 2 channels per group and 4
output channels. -/
def wDescCHWN : TensorDesc := ⟨[2, 1, 1, 4], true, .float, .CHWNc4⟩

/-- Forward tensors with non-null buffers. -/
def fwdTensorsStd : ConvTensors := ⟨xDescStd, false, wDescStd, false, yDescStd, false⟩

/-- A fully valid forward input: alpha 1, beta 0, direct algorithm, group
count 1. -/
def fwdInputStd : ConvFwdInput :=
  ⟨1, 0, .direct, "miopenConvolutionFwdAlgoDirect", fwdTensorsStd, 1, 0⟩

/-- A cache holding invoker 7 for the forward input's config and
algorithm name. -/
def cacheWithFwd : InvokerCache :=
  [((0, .byAlgo "miopenConvolutionFwdAlgoDirect"), 7)]

/-- A fully valid backward-data input (dy channels 8 = filter dim 0). -/
def bwdInputStd : ConvBwdInput :=
  ⟨1, 0, .direct, "miopenConvolutionBwdDataAlgoDirect", yDescStd, false,
    wDescStd, false, xDescStd, false, 1, 0⟩

/-- A cache holding invoker 7 for the backward-data input. -/
def cacheWithBwd : InvokerCache :=
  [((0, .byAlgo "miopenConvolutionBwdDataAlgoDirect"), 7)]

/-- A fully valid backward-weights input. -/
def wrwInputStd : ConvWrwInput :=
  ⟨1, 0, .direct, "miopenConvolutionBwdWeightsAlgoDirect", yDescStd, false,
    xDescStd, false, wDescStd, false, 1, 0⟩

/-- A cache holding invoker 7 for the backward-weights input. -/
def cacheWithWrw : InvokerCache :=
  [((0, .byAlgo "miopenConvolutionBwdWeightsAlgoDirect"), 7)]

/-- The backward-weights input with an unpacked dy descriptor. -/
def wrwInputUnpacked : ConvWrwInput :=
  { wrwInputStd with dyDesc := ⟨[1, 8, 1, 1], false, .float, .NCHW⟩ }

/-- The WTI-scenario registry: solver 1 (algo 1) with WTI 0.5 and solver 2
(algo 1) with WTI 2.0, both applicable, dynamic and enabled. -/
def scenarioRegistry : List SolverRegEntry :=
  [⟨1, 1, false, false, true, true, 1 / 2, 100⟩,
   ⟨2, 1, false, false, true, true, 2, 200⟩]

/-- A registry holding a single applicable dynamic solver whose WTI is
exactly 0. -/
def zeroWtiRegistry : List SolverRegEntry :=
  [⟨3, 1, false, false, true, true, 0, 50⟩]

/-- Find-db environment where every id is valid, no algorithm is disabled
and only solver 2 is applicable. -/
def fdbEnvStd : SolverEnv := ⟨fun _ => true, fun _ => false, fun i => decide (i = 2)⟩

/-- A find-db record with solver 1 (time 1) and solver 2 (time 2). -/
def fdbRecordStd : List FdbEntry := [⟨1, 0, 1, 10⟩, ⟨2, 0, 2, 20⟩]

/-- The forward input with an unpacked input descriptor. -/
def fwdInputUnpacked : ConvFwdInput :=
  { fwdInputStd with
    tensors := { fwdTensorsStd with xDesc := ⟨[1, 4, 1, 1], false, .float, .NCHW⟩ } }

/-- The backward-data input with an unpacked dy descriptor. -/
def bwdInputUnpacked : ConvBwdInput :=
  { bwdInputStd with dyDesc := ⟨[1, 8, 1, 1], false, .float, .NCHW⟩ }

/-! ## Theorems -/

/-! ### C1: the solution time comparator -/

theorem solutionTimeComp_neg_neg {a b : ConvSolution}
    (ha : a.time < 0) (hb : b.time < 0) :
    solutionTimeComp a b = !(decide (a.time < b.time)) := by
  unfold solutionTimeComp
  rw [if_pos ⟨ha, hb⟩]

theorem solutionTimeComp_pos_neg {a b : ConvSolution}
    (ha : 0 < a.time) (hb : b.time < 0) :
    solutionTimeComp a b = true := by
  unfold solutionTimeComp
  rw [if_neg (by rintro ⟨h, -⟩; linarith), if_pos ⟨ha, hb⟩]

theorem solutionTimeComp_neg_pos {a b : ConvSolution}
    (ha : a.time < 0) (hb : 0 < b.time) :
    solutionTimeComp a b = false := by
  unfold solutionTimeComp
  rw [if_neg (by rintro ⟨-, h⟩; linarith), if_neg (by rintro ⟨h, -⟩; linarith),
    if_pos ⟨ha, hb⟩]

theorem solutionTimeComp_pos_pos {a b : ConvSolution}
    (ha : 0 < a.time) (hb : 0 < b.time) :
    solutionTimeComp a b = decide (a.time < b.time) := by
  unfold solutionTimeComp
  rw [if_neg (by rintro ⟨h, -⟩; linarith), if_neg (by rintro ⟨-, h⟩; linarith),
    if_neg (by rintro ⟨h, -⟩; linarith)]

/-- C1 (amended).  `SolutionTimeComparator` orders as claimed on the three
sign cases: any positive time sorts before any negative one, among
negatives the one closer to zero sorts first, among positives the smaller
sorts first.  Restricted to solutions with nonzero times it is asymmetric
and total on distinct times and transitive, but it is not a strict order
on all inputs: on a pair of equal negative times it returns `true` both
ways (see the counterexample). -/
theorem solutionTimeComparator_order (a b : ConvSolution) :
    (0 < a.time → b.time < 0 →
      solutionTimeComp a b = true ∧ solutionTimeComp b a = false) ∧
    (a.time < 0 → b.time < 0 →
      (solutionTimeComp a b = true ↔ b.time ≤ a.time)) ∧
    (0 < a.time → 0 < b.time →
      (solutionTimeComp a b = true ↔ a.time < b.time)) ∧
    (a.time ≠ 0 → b.time ≠ 0 → a.time ≠ b.time →
      (solutionTimeComp a b = true ↔ solutionTimeComp b a = false)) ∧
    (∀ c : ConvSolution, a.time ≠ 0 → b.time ≠ 0 → c.time ≠ 0 →
      solutionTimeComp a b = true → solutionTimeComp b c = true →
      solutionTimeComp a c = true) := by
  refine ⟨?_, ?_, ?_, ?_, ?_⟩
  · intro ha hb
    exact ⟨solutionTimeComp_pos_neg ha hb, solutionTimeComp_neg_pos hb ha⟩
  · intro ha hb
    rw [solutionTimeComp_neg_neg ha hb]
    simp [not_lt]
  · intro ha hb
    rw [solutionTimeComp_pos_pos ha hb]
    simp
  · intro ha0 hb0 hab
    rcases ha0.lt_or_lt with ha | ha <;> rcases hb0.lt_or_lt with hb | hb
    · rw [solutionTimeComp_neg_neg ha hb, solutionTimeComp_neg_neg hb ha]
      simp only [Bool.not_eq_true', Bool.not_eq_false', decide_eq_false_iff_not,
        decide_eq_true_eq, not_lt]
      constructor
      · intro h
        exact lt_of_le_of_ne h (Ne.symm hab)
      · exact le_of_lt
    · rw [solutionTimeComp_neg_pos ha hb, solutionTimeComp_pos_neg hb ha]
      simp
    · rw [solutionTimeComp_pos_neg ha hb, solutionTimeComp_neg_pos hb ha]
      simp
    · rw [solutionTimeComp_pos_pos ha hb, solutionTimeComp_pos_pos hb ha]
      simp only [decide_eq_true_eq, decide_eq_false_iff_not, not_lt]
      constructor
      · exact le_of_lt
      · intro h
        exact lt_of_le_of_ne h hab
  · intro c ha0 hb0 hc0 hab hbc
    rcases ha0.lt_or_lt with ha | ha <;> rcases hb0.lt_or_lt with hb | hb <;>
      rcases hc0.lt_or_lt with hc | hc
    · rw [solutionTimeComp_neg_neg ha hb] at hab
      rw [solutionTimeComp_neg_neg hb hc] at hbc
      rw [solutionTimeComp_neg_neg ha hc]
      simp only [Bool.not_eq_true', decide_eq_false_iff_not, not_lt] at hab hbc ⊢
      linarith
    · rw [solutionTimeComp_neg_pos hb hc] at hbc
      simp at hbc
    · rw [solutionTimeComp_neg_pos ha hb] at hab
      simp at hab
    · rw [solutionTimeComp_neg_pos ha hb] at hab
      simp at hab
    · exact solutionTimeComp_pos_neg ha hc
    · rw [solutionTimeComp_neg_pos hb hc] at hbc
      simp at hbc
    · exact solutionTimeComp_pos_neg ha hc
    · rw [solutionTimeComp_pos_pos ha hb] at hab
      rw [solutionTimeComp_pos_pos hb hc] at hbc
      rw [solutionTimeComp_pos_pos ha hc]
      simp only [decide_eq_true_eq] at hab hbc ⊢
      linarith

/-- C1 counterexample to the claim as stated: a strict order is
irreflexive, but on a solution with negative time the comparator relates
the element to itself (`!(t < t)` is `true`), so `SolutionTimeComparator`
is not a strict order over all solution times. -/
theorem solutionTimeComparator_not_strict :
    solutionTimeComp negEstimateSol negEstimateSol = true := by decide

/-- Witness for C1 at concrete inputs: time 1 sorts before time -5 and not
conversely. -/
theorem solutionTimeComparator_order_witness :
    solutionTimeComp ⟨1, 0, 0, 0⟩ ⟨-5, 0, 0, 0⟩ = true ∧
    solutionTimeComp ⟨-5, 0, 0, 0⟩ ⟨1, 0, 0, 0⟩ = false :=
  (solutionTimeComparator_order ⟨1, 0, 0, 0⟩ ⟨-5, 0, 0, 0⟩).1 (by decide) (by decide)

/-! ### C2: ShrinkToFind10Results -/

theorem shrinkLoop_nil (out : List PerfField) : shrinkLoop out [] = out := rfl

theorem shrinkLoop_cons_skip (out : List PerfField) (f : PerfField)
    (rest : List PerfField)
    (h : (out.any fun o => decide (o.algorithm = f.algorithm)) = true) :
    shrinkLoop out (f :: rest) = shrinkLoop out rest := by
  rw [shrinkLoop, if_pos h]

theorem shrinkLoop_cons_add (out : List PerfField) (f : PerfField)
    (rest : List PerfField)
    (h : (out.any fun o => decide (o.algorithm = f.algorithm)) = false) :
    shrinkLoop out (f :: rest) = shrinkLoop (out ++ [f]) rest := by
  rw [shrinkLoop, if_neg]
  simp [h]

theorem seenAlgo_iff (out : List PerfField) (f : PerfField) :
    (out.any fun o => decide (o.algorithm = f.algorithm)) = true ↔
      f.algorithm ∈ out.map PerfField.algorithm := by
  simp only [List.any_eq_true, decide_eq_true_eq, List.mem_map]

theorem shrinkLoop_mem (rest : List PerfField) :
    ∀ (out : List PerfField) (g : PerfField),
      g ∈ shrinkLoop out rest → g ∈ out ∨ g ∈ rest := by
  induction rest with
  | nil =>
    intro out g h
    exact Or.inl h
  | cons f rest ih =>
    intro out g h
    by_cases hc : (out.any fun o => decide (o.algorithm = f.algorithm)) = true
    · rw [shrinkLoop_cons_skip out f rest hc] at h
      rcases ih out g h with h' | h'
      · exact Or.inl h'
      · exact Or.inr (List.mem_cons_of_mem f h')
    · rw [shrinkLoop_cons_add out f rest (Bool.eq_false_iff.mpr hc)] at h
      rcases ih (out ++ [f]) g h with h' | h'
      · rcases List.mem_append.mp h' with h'' | h''
        · exact Or.inl h''
        · exact Or.inr (List.mem_cons.mpr (Or.inl (List.mem_singleton.mp h'')))
      · exact Or.inr (List.mem_cons_of_mem f h')

theorem shrinkLoop_eq_append (rest : List PerfField) :
    ∀ out : List PerfField,
      ∃ t, t.Sublist rest ∧ shrinkLoop out rest = out ++ t := by
  induction rest with
  | nil =>
    intro out
    exact ⟨[], List.Sublist.refl _, by simp [shrinkLoop_nil]⟩
  | cons f rest ih =>
    intro out
    by_cases hc : (out.any fun o => decide (o.algorithm = f.algorithm)) = true
    · obtain ⟨t, hts, hte⟩ := ih out
      exact ⟨t, hts.cons f, by rw [shrinkLoop_cons_skip out f rest hc, hte]⟩
    · obtain ⟨t, hts, hte⟩ := ih (out ++ [f])
      refine ⟨f :: t, hts.cons₂ f, ?_⟩
      rw [shrinkLoop_cons_add out f rest (Bool.eq_false_iff.mpr hc), hte]
      simp

theorem shrinkLoop_algos_sub (rest : List PerfField) :
    ∀ (out : List PerfField) (a : String),
      a ∈ out.map PerfField.algorithm ∨ a ∈ rest.map PerfField.algorithm →
      a ∈ (shrinkLoop out rest).map PerfField.algorithm := by
  induction rest with
  | nil =>
    intro out a h
    rw [shrinkLoop_nil]
    exact h.resolve_right (by simp)
  | cons f rest ih =>
    intro out a h
    by_cases hc : (out.any fun o => decide (o.algorithm = f.algorithm)) = true
    · rw [shrinkLoop_cons_skip out f rest hc]
      refine ih out a ?_
      rcases h with h' | h'
      · exact Or.inl h'
      · rcases List.mem_map.mp h' with ⟨g, hg, hga⟩
        rcases List.mem_cons.mp hg with hgf | hgr
        · subst hgf
          exact Or.inl (hga ▸ (seenAlgo_iff out g).mp hc)
        · exact Or.inr (List.mem_map.mpr ⟨g, hgr, hga⟩)
    · rw [shrinkLoop_cons_add out f rest (Bool.eq_false_iff.mpr hc)]
      refine ih (out ++ [f]) a ?_
      rcases h with h' | h'
      · exact Or.inl (by simpa using Or.inl h')
      · rcases List.mem_map.mp h' with ⟨g, hg, hga⟩
        rcases List.mem_cons.mp hg with hgf | hgr
        · subst hgf
          exact Or.inl (by simp [hga])
        · exact Or.inr (List.mem_map.mpr ⟨g, hgr, hga⟩)

theorem shrinkLoop_seen (rest : List PerfField) :
    ∀ (out : List PerfField) (g : PerfField),
      g ∈ shrinkLoop out rest → g.algorithm ∈ out.map PerfField.algorithm →
      g ∈ out := by
  induction rest with
  | nil =>
    intro out g h _
    simpa [shrinkLoop_nil] using h
  | cons f rest ih =>
    intro out g h hseen
    by_cases hc : (out.any fun o => decide (o.algorithm = f.algorithm)) = true
    · rw [shrinkLoop_cons_skip out f rest hc] at h
      exact ih out g h hseen
    · rw [shrinkLoop_cons_add out f rest (Bool.eq_false_iff.mpr hc)] at h
      have hg : g ∈ out ++ [f] := ih (out ++ [f]) g h (by simpa using Or.inl hseen)
      rcases List.mem_append.mp hg with h' | h'
      · exact h'
      · exfalso
        have : g = f := List.mem_singleton.mp h'
        subst this
        exact hc ((seenAlgo_iff out g).mpr hseen)

theorem shrinkLoop_nodupAlgos (rest : List PerfField) :
    ∀ out : List PerfField, (out.map PerfField.algorithm).Nodup →
      ((shrinkLoop out rest).map PerfField.algorithm).Nodup := by
  induction rest with
  | nil =>
    intro out h
    simpa [shrinkLoop_nil] using h
  | cons f rest ih =>
    intro out h
    by_cases hc : (out.any fun o => decide (o.algorithm = f.algorithm)) = true
    · rw [shrinkLoop_cons_skip out f rest hc]
      exact ih out h
    · rw [shrinkLoop_cons_add out f rest (Bool.eq_false_iff.mpr hc)]
      refine ih (out ++ [f]) ?_
      have hns : f.algorithm ∉ out.map PerfField.algorithm :=
        fun hmem => hc ((seenAlgo_iff out f).mpr hmem)
      simp [List.nodup_append, h, hns]

theorem shrinkLoop_minTime (rest : List PerfField) :
    ∀ out : List PerfField, (out ++ rest).Pairwise perfFieldLE →
      ∀ g ∈ shrinkLoop out rest, ∀ f ∈ rest,
        f.algorithm = g.algorithm → g.time ≤ f.time := by
  induction rest with
  | nil =>
    intro out _ g _ f hf
    exact absurd hf (List.not_mem_nil f)
  | cons f0 rest ih =>
    intro out hpw g hg f hf halg
    have hout_le : ∀ o ∈ out, ∀ x ∈ f0 :: rest, o.time ≤ x.time := by
      intro o ho x hx
      exact (List.pairwise_append.mp hpw).2.2 o ho x hx
    by_cases hc : (out.any fun o => decide (o.algorithm = f0.algorithm)) = true
    · rw [shrinkLoop_cons_skip out f0 rest hc] at hg
      rcases List.mem_cons.mp hf with hf0 | hfr
      · have halg0 : f0.algorithm = g.algorithm := hf0 ▸ halg
        have hseen : g.algorithm ∈ out.map PerfField.algorithm :=
          halg0 ▸ (seenAlgo_iff out f0).mp hc
        have hgo : g ∈ out := shrinkLoop_seen rest out g hg hseen
        rw [hf0]
        exact hout_le g hgo f0 (List.mem_cons_self f0 rest)
      · have hpw' : (out ++ rest).Pairwise perfFieldLE :=
          hpw.sublist (List.Sublist.append_left (List.sublist_cons_self f0 rest) out)
        exact ih out hpw' g hg f hfr halg
    · rw [shrinkLoop_cons_add out f0 rest (Bool.eq_false_iff.mpr hc)] at hg
      have hpw2 : ((out ++ [f0]) ++ rest).Pairwise perfFieldLE := by
        simpa using hpw
      rcases List.mem_cons.mp hf with hf0 | hfr
      · have halg0 : f0.algorithm = g.algorithm := hf0 ▸ halg
        have hseen : g.algorithm ∈ (out ++ [f0]).map PerfField.algorithm :=
          List.mem_map.mpr ⟨f0, by simp, halg0⟩
        have hgo : g ∈ out ++ [f0] := shrinkLoop_seen rest (out ++ [f0]) g hg hseen
        rw [hf0]
        rcases List.mem_append.mp hgo with h' | h'
        · exact hout_le g h' f0 (List.mem_cons_self f0 rest)
        · rw [List.mem_singleton.mp h']
      · exact ih (out ++ [f0]) hpw2 g hg f hfr halg

/-- C2.  `ShrinkToFind10Results` keeps exactly one entry per distinct
algorithm name of the input (the algorithm sets coincide and the output's
algorithms are duplicate-free), the kept entry is an input entry of
minimum time among its algorithm, and the output is sorted by time
ascending. -/
theorem shrinkToFind10Results_spec (found : List PerfField) :
    (∀ g ∈ shrinkToFind10Results found,
      g ∈ found ∧ ∀ f ∈ found, f.algorithm = g.algorithm → g.time ≤ f.time) ∧
    (∀ a : String, a ∈ (shrinkToFind10Results found).map PerfField.algorithm ↔
      a ∈ found.map PerfField.algorithm) ∧
    ((shrinkToFind10Results found).map PerfField.algorithm).Nodup ∧
    (shrinkToFind10Results found).Pairwise perfFieldLE := by
  have hperm := List.perm_insertionSort perfFieldLE found
  have hsorted : (List.insertionSort perfFieldLE found).Pairwise perfFieldLE :=
    List.sorted_insertionSort perfFieldLE found
  refine ⟨?_, ?_, ?_, ?_⟩
  · intro g hg
    have hg' := shrinkLoop_mem _ [] g hg
    have hgs : g ∈ List.insertionSort perfFieldLE found := by
      simpa using hg'
    constructor
    · exact hperm.mem_iff.mp hgs
    · intro f hf halg
      have hfs : f ∈ List.insertionSort perfFieldLE found := hperm.mem_iff.mpr hf
      exact shrinkLoop_minTime _ [] (by simpa using hsorted) g hg f hfs halg
  · intro a
    constructor
    · intro ha
      rcases List.mem_map.mp ha with ⟨g, hg, hga⟩
      have hg' := shrinkLoop_mem _ [] g hg
      have hgs : g ∈ List.insertionSort perfFieldLE found := by simpa using hg'
      exact List.mem_map.mpr ⟨g, hperm.mem_iff.mp hgs, hga⟩
    · intro ha
      rcases List.mem_map.mp ha with ⟨g, hg, hga⟩
      have hgs : g ∈ List.insertionSort perfFieldLE found := hperm.mem_iff.mpr hg
      exact shrinkLoop_algos_sub _ [] a (Or.inr (List.mem_map.mpr ⟨g, hgs, hga⟩))
  · exact shrinkLoop_nodupAlgos _ [] (by simp)
  · obtain ⟨t, hts, hte⟩ := shrinkLoop_eq_append (List.insertionSort perfFieldLE found) []
    rw [shrinkToFind10Results, hte]
    simpa using hsorted.sublist hts

/-- Witness for C2 at a concrete input with a duplicate algorithm. -/
theorem shrinkToFind10Results_spec_witness :
    (⟨"A", "s1", 1, 0⟩ : PerfField) ∈
      shrinkToFind10Results [⟨"A", "s2", 3, 0⟩, ⟨"A", "s1", 1, 0⟩] ∧
    (⟨"A", "s1", 1, 0⟩ : PerfField) ∈
      ([⟨"A", "s2", 3, 0⟩, ⟨"A", "s1", 1, 0⟩] : List PerfField) ∧
    (1 : ℚ) ≤ 3 :=
  have h := (shrinkToFind10Results_spec
    [⟨"A", "s2", 3, 0⟩, ⟨"A", "s1", 1, 0⟩]).1 ⟨"A", "s1", 1, 0⟩ (by decide)
  ⟨by decide, h.1, h.2 ⟨"A", "s2", 3, 0⟩ (by decide) (by decide)⟩

/-! ### C3: the WTI fallback tier -/

/-- C3 (amended).  In the WTI tier of `GetSolutionsFallback`: every
registered, non-disabled, non-empty, dynamic, applicable solver with
WTI > 0 appears among the accepted candidates with synthetic time
`10 / wti`; every accepted candidate comes from such a solver with
WTI ≥ 0 and carries time `wti2time wti` — solvers with WTI < 0 are
excluded, but a solver with WTI exactly 0 (asserted unreachable in the
code) is kept with synthetic time 0, contrary to the claim's "WTI ≤ 0 is
excluded" (see the counterexample).  The accepted candidates are sorted
with `SolutionTimeComparator` and truncated to `maxSolutionCount`, and
the concrete scenario (wti 0.5 ↦ time 20, wti 2 ↦ time 5, the wti-2
solver first) holds. -/
theorem getSolutionsFallback_wti (registry : List SolverRegEntry) :
    (∀ e ∈ registry, e.algoDisabled = false → e.isEmpty = false →
      e.isDynamic = true → e.isApplicable = true → 0 < e.wti →
      (⟨10 / e.wti, e.workspace, e.id, e.algo⟩ : ConvSolution) ∈
        wtiFallbackInterim registry) ∧
    (∀ s ∈ wtiFallbackInterim registry, ∃ e ∈ registry,
      e.algoDisabled = false ∧ e.isEmpty = false ∧ e.isDynamic = true ∧
      e.isApplicable = true ∧ 0 ≤ e.wti ∧
      s = ⟨wti2time e.wti, e.workspace, e.id, e.algo⟩) ∧
    (∀ (inDesc weightsDesc : TensorDesc) (groupCount maxSolutionCount : ℕ),
      validateGroupCount inDesc weightsDesc groupCount = .ok () →
      getSolutionsFallback false inDesc weightsDesc groupCount registry
          maxSolutionCount =
        .ok ((sortSolutions (wtiFallbackInterim registry)).take
          maxSolutionCount)) ∧
    getSolutionsFallback false xDescStd wDescStd 1 scenarioRegistry 10 =
      .ok [⟨5, 200, 2, 1⟩, ⟨20, 100, 1, 1⟩] := by
  refine ⟨?_, ?_, ?_, ?_⟩
  · intro e he hd hie hdy hap hwti
    refine List.mem_filterMap.mpr ⟨e, he, ?_⟩
    rw [if_neg (by simp [hd]), if_neg (by simp [hie, hdy, hap]),
      if_neg (by simpa using not_lt.mpr hwti.le)]
    have : wti2time e.wti = 10 / e.wti := by
      rw [wti2time, if_neg (not_le.mpr hwti)]
    rw [this]
  · intro s hs
    rcases List.mem_filterMap.mp hs with ⟨e, he, hfe⟩
    refine ⟨e, he, ?_⟩
    split_ifs at hfe with h1 h2 h3
    have hfe' := Option.some.inj hfe
    push_neg at h2
    exact ⟨by simpa using h1, by simpa using h2.1, by simpa using h2.2.1,
      by simpa using h2.2.2, not_lt.mp h3, hfe'.symm⟩
  · intro inDesc weightsDesc groupCount maxSolutionCount hvg
    simp [getSolutionsFallback, hvg]
  · have e1 : wti2time (1 / 2) = 20 := by norm_num [wti2time]
    have e2 : wti2time 2 = 5 := by norm_num [wti2time]
    have hint : wtiFallbackInterim scenarioRegistry =
        [⟨20, 100, 1, 1⟩, ⟨5, 200, 2, 1⟩] := by
      norm_num [wtiFallbackInterim, scenarioRegistry, List.filterMap, e1, e2]
    have hvg : validateGroupCount xDescStd wDescStd 1 = .ok () := by decide
    have hsort : (sortSolutions [⟨20, 100, 1, 1⟩, ⟨5, 200, 2, 1⟩]).take 10 =
        [⟨5, 200, 2, 1⟩, ⟨20, 100, 1, 1⟩] := by decide
    simp [getSolutionsFallback, hvg, hint, hsort]

/-- C3 counterexample to the claim as stated: a registered, applicable,
dynamic, enabled solver whose WTI is exactly 0 is not excluded — it is
accepted with synthetic time 0 (only strictly negative WTIs are
skipped). -/
theorem getSolutionsFallback_zero_wti :
    getSolutionsFallback false xDescStd wDescStd 1 zeroWtiRegistry 10 =
      .ok [⟨0, 50, 3, 1⟩] := by decide

/-- Witness for C3 at the scenario registry: the wti-2 solver appears with
synthetic time 10 / 2. -/
theorem getSolutionsFallback_wti_witness :
    (⟨10 / 2, 200, 2, 1⟩ : ConvSolution) ∈ wtiFallbackInterim scenarioRegistry :=
  (getSolutionsFallback_wti scenarioRegistry).1
    ⟨2, 1, false, false, true, true, 2, 200⟩ (by decide) rfl rfl rfl rfl (by decide)

/-! ### C4: Fast/Hybrid short-circuit in FindConvolution -/

theorem shrinkToFind10Results_singleton (f : PerfField) :
    shrinkToFind10Results [f] = [f] := rfl

/-- C4.  In Fast or Hybrid find mode, when `GetSolutions` (queried with
count 1) returns a non-empty list and — in Hybrid mode — the result did
not come from the fallback path (unless the force-fallback override is
on), `FindConvolution` compiles the front solution and returns exactly
that single result (its solver's algorithm, solver id string, estimated
time and workspace size), without consulting the find-db and without
running the benchmarking pipeline. -/
theorem findConvolution_shortCircuit (fm : FindModeCtx) (validId : ℕ → Bool)
    (algoOf idStr : ℕ → String) (s : ConvSolution) (rest : List ConvSolution)
    (fallback : Bool) (findDbResults : List PerfField)
    (hmode : fm.isFast = true ∨ fm.isHybrid = true)
    (hfb : ¬(fm.isHybrid = true ∧ fallback = true) ∨ fm.forceImmedFallback = true)
    (hvalid : validId s.solution_id = true)
    (hco : fm.debugCompileOnly = false) :
    findConvolution fm validId algoOf idStr (s :: rest) fallback findDbResults =
      .ok ⟨[⟨algoOf s.solution_id, idStr s.solution_id, s.time, s.workspace_size⟩],
        false, [s.solution_id]⟩ := by
  have hcond : (fm.isFast = true ∨ fm.isHybrid = true) ∧
      ¬(s :: rest).isEmpty = true ∧
      (¬(fm.isHybrid = true ∧ fallback = true) ∨ fm.forceImmedFallback = true) :=
    ⟨hmode, by simp, hfb⟩
  rw [findConvolution]
  simp only [if_pos hcond, List.head?_cons]
  rw [if_neg (by simp [hvalid]), if_neg (by simp [hco]),
    shrinkToFind10Results_singleton]

/-- Witness for C4: Fast mode, a single candidate solution from the
immediate path, empty find-db results. -/
theorem findConvolution_shortCircuit_witness :
    findConvolution ⟨true, false, false, false⟩ (fun _ => true)
        (fun _ => "algo") (fun _ => "42") [⟨5, 100, 42, 3⟩] true [] =
      .ok ⟨[⟨"algo", "42", 5, 100⟩], false, [42]⟩ :=
  findConvolution_shortCircuit ⟨true, false, false, false⟩ (fun _ => true)
    (fun _ => "algo") (fun _ => "42") ⟨5, 100, 42, 3⟩ [] true []
    (Or.inl rfl) (Or.inl (by simp)) rfl rfl

/-! ### C5: invoker-cache round trip -/

theorem cacheLookup_register_solver (c : InvokerCache) (inv config : ℕ)
    (idS algo : String) :
    cacheLookup (registerInvoker c inv config idS algo) config
      (.bySolver idS) = some inv := by
  simp [cacheLookup, registerInvoker, List.find?]

theorem cacheLookup_register_algo (c : InvokerCache) (inv config : ℕ)
    (idS algo : String) :
    cacheLookup (registerInvoker c inv config idS algo) config
      (.byAlgo algo) = some inv := by
  simp [cacheLookup, registerInvoker, List.find?]

/-- C5.  On a cache miss, `LoadOrPrepareInvoker` takes the compile path
and registers the compiled invoker under both the (config, solver-id) key
and the (config, algorithm-name) key, both resolving to the same invoker;
an immediately following call with the identical (config, solver id)
returns that cached invoker, leaves the cache unchanged, and does not take
the compile path. -/
theorem loadOrPrepareInvoker_roundTrip (compile : ℕ → ℕ → ℕ)
    (c : InvokerCache) (config sid : ℕ) (idStr algoOf : ℕ → String)
    (hmiss : cacheLookup c config (.bySolver (idStr sid)) = none) :
    (loadOrPrepareInvoker compile c config sid idStr algoOf).2.2 = true ∧
    cacheLookup (loadOrPrepareInvoker compile c config sid idStr algoOf).2.1
        config (.bySolver (idStr sid)) =
      some (loadOrPrepareInvoker compile c config sid idStr algoOf).1 ∧
    cacheLookup (loadOrPrepareInvoker compile c config sid idStr algoOf).2.1
        config (.byAlgo (algoOf sid)) =
      some (loadOrPrepareInvoker compile c config sid idStr algoOf).1 ∧
    loadOrPrepareInvoker compile
        (loadOrPrepareInvoker compile c config sid idStr algoOf).2.1
        config sid idStr algoOf =
      ((loadOrPrepareInvoker compile c config sid idStr algoOf).1,
        (loadOrPrepareInvoker compile c config sid idStr algoOf).2.1,
        false) := by
  have hdef : loadOrPrepareInvoker compile c config sid idStr algoOf =
      (compile config sid,
        registerInvoker c (compile config sid) config (idStr sid) (algoOf sid),
        true) := by
    rw [loadOrPrepareInvoker, hmiss]
    rfl
  rw [hdef]
  refine ⟨rfl, cacheLookup_register_solver c (compile config sid) config
      (idStr sid) (algoOf sid),
    cacheLookup_register_algo c (compile config sid) config
      (idStr sid) (algoOf sid), ?_⟩
  rw [loadOrPrepareInvoker, cacheLookup_register_solver c (compile config sid)
    config (idStr sid) (algoOf sid)]

/-- Witness for C5 at a concrete empty cache. -/
theorem loadOrPrepareInvoker_roundTrip_witness :
    (loadOrPrepareInvoker (fun _ _ => 3) [] 0 5 (fun _ => "id")
        (fun _ => "A")).2.2 = true ∧
    cacheLookup (loadOrPrepareInvoker (fun _ _ => 3) [] 0 5 (fun _ => "id")
        (fun _ => "A")).2.1 0 (.bySolver "id") =
      some (loadOrPrepareInvoker (fun _ _ => 3) [] 0 5 (fun _ => "id")
        (fun _ => "A")).1 ∧
    cacheLookup (loadOrPrepareInvoker (fun _ _ => 3) [] 0 5 (fun _ => "id")
        (fun _ => "A")).2.1 0 (.byAlgo "A") =
      some (loadOrPrepareInvoker (fun _ _ => 3) [] 0 5 (fun _ => "id")
        (fun _ => "A")).1 ∧
    loadOrPrepareInvoker (fun _ _ => 3)
        (loadOrPrepareInvoker (fun _ _ => 3) [] 0 5 (fun _ => "id")
          (fun _ => "A")).2.1 0 5 (fun _ => "id") (fun _ => "A") =
      ((loadOrPrepareInvoker (fun _ _ => 3) [] 0 5 (fun _ => "id")
          (fun _ => "A")).1,
        (loadOrPrepareInvoker (fun _ _ => 3) [] 0 5 (fun _ => "id")
          (fun _ => "A")).2.1,
        false) :=
  loadOrPrepareInvoker_roundTrip (fun _ _ => 3) [] 0 5 (fun _ => "id")
    (fun _ => "A") rfl

/-! ### C6: grouped-convolution validation -/

theorem channelFirst_not_chwn {l : TensorLayout}
    (h : isChannelFirstLayout l = true) : isCHWNcLayout l = false := by
  cases l <;> simp_all [isChannelFirstLayout, isCHWNcLayout]

theorem chwn_not_channelFirst {l : TensorLayout}
    (h : isCHWNcLayout l = true) : isChannelFirstLayout l = false := by
  cases l <;> simp_all [isChannelFirstLayout, isCHWNcLayout]

/-- C6 (amended).  For `group_count > 1`, `ValidateGroupCount` rejects
with `BadParm` whenever the input channel count is not divisible by the
group count.  For channel-first filter layouts it accepts exactly when,
the divisibility side conditions holding, the input channels divided by
the group count equal the filter's per-group channel count (dimension 1),
and rejects on a mismatch.  For channel-last (`CHWNc4`/`CHWNc8`) filter
layouts, however, every grouped problem that passes the divisibility
checks is rejected unconditionally — there is no accepting case, contrary
to the claim (see the counterexample). -/
theorem validateGroupCount_grouped (xDesc wDesc : TensorDesc) (g : ℕ) :
    (1 < g → xDesc.len 1 % g ≠ 0 →
      validateGroupCount xDesc wDesc g =
        .error (.badParm "Invalid group number")) ∧
    (isChannelFirstLayout wDesc.layout = true → 1 < g →
      xDesc.len 1 % g = 0 → g ≤ xDesc.len 1 →
      wDesc.len 0 % g = 0 → g ≤ wDesc.len 0 →
      (xDesc.len 1 / g = wDesc.len 1 →
        validateGroupCount xDesc wDesc g = .ok ()) ∧
      (xDesc.len 1 / g ≠ wDesc.len 1 →
        validateGroupCount xDesc wDesc g =
          .error (.badParm "Invalid filter channel number"))) ∧
    (isCHWNcLayout wDesc.layout = true → 1 < g →
      xDesc.len 1 % g = 0 → g ≤ xDesc.len 1 →
      wDesc.len 3 % g = 0 → g ≤ wDesc.len 3 →
      validateGroupCount xDesc wDesc g =
        .error (.badParm "Invalid filter channel number")) := by
  refine ⟨?_, ?_, ?_⟩
  · intro hg hx
    rw [validateGroupCount, if_neg (by rintro ⟨h, -⟩; omega), if_pos hg,
      if_pos (Or.inl hx)]
  · intro hcf hg hx hgx hw hgw
    have hchwn : isCHWNcLayout wDesc.layout = false := channelFirst_not_chwn hcf
    constructor
    · intro heq
      rw [validateGroupCount, if_neg (by rintro ⟨h, -⟩; omega), if_pos hg,
        if_neg (by simp [hx, hchwn, hw]; omega),
        if_neg (by simp [hchwn, heq])]
    · intro hne
      rw [validateGroupCount, if_neg (by rintro ⟨h, -⟩; omega), if_pos hg,
        if_neg (by simp [hx, hchwn, hw]; omega),
        if_pos (Or.inl ⟨hcf, hne⟩)]
  · intro hcl hg hx hgx hw hgw
    have hcf : isChannelFirstLayout wDesc.layout = false := chwn_not_channelFirst hcl
    rw [validateGroupCount, if_neg (by rintro ⟨h, -⟩; omega), if_pos hg,
      if_neg (by simp [hx, hcf, hw]; omega),
      if_pos (Or.inr hcl)]

/-- C6 counterexample to the claim as stated: a grouped problem with a
CHWNc4 filter whose input channels are divisible by the group count and
whose per-group channel count (dimension 0 in this layout) matches
input-channels / group-count is nevertheless rejected. -/
theorem validateGroupCount_chwn_counterexample :
    validateGroupCount xDescStd wDescCHWN 2 =
      .error (.badParm "Invalid filter channel number") ∧
    xDescStd.len 1 % 2 = 0 ∧ xDescStd.len 1 / 2 = wDescCHWN.len 0 := by decide

/-- Witness for C6: a channel-first grouped problem with matching
per-group channels is accepted. -/
theorem validateGroupCount_grouped_witness :
    validateGroupCount ⟨[1, 4, 1, 1], true, .float, .NCHW⟩
      ⟨[8, 2, 1, 1], true, .float, .NCHW⟩ 2 = .ok () :=
  ((validateGroupCount_grouped ⟨[1, 4, 1, 1], true, .float, .NCHW⟩
      ⟨[8, 2, 1, 1], true, .float, .NCHW⟩ 2).2.1 rfl (by decide) (by decide)
      (by decide) (by decide) (by decide)).1 (by decide)

/-! ### C7: alpha/beta validation -/

/-- C7.  `ValidateAlphaBeta` accepts exactly alpha = 1 and beta = 0 (exact
comparison); each of the three direct execution entry points rejects any
other alpha/beta with the `NotImplemented` "Only alpha=1 and beta=0 is
supported" error during validation — before an invoker can run — and in
particular alpha = 0.999999 is rejected while the exact alpha = 1,
beta = 0 call proceeds to execution. -/
theorem alphaBetaValidation_spec :
    (∀ a b : ℚ, validateAlphaBeta a b = .ok () ↔ (a = 1 ∧ b = 0)) ∧
    (∀ (input : ConvFwdInput) (cache : InvokerCache),
      input.tensors.xDesc.packed = true → input.tensors.wDesc.packed = true →
      input.tensors.yDesc.packed = true →
      validateConvTensors input.tensors = .ok () →
      ¬(input.alpha = 1 ∧ input.beta = 0) →
      convolutionForward input cache =
        .error (.notImplemented "Only alpha=1 and beta=0 is supported")) ∧
    (∀ (input : ConvBwdInput) (cache : InvokerCache),
      input.dyDesc.packed = true → input.wDesc.packed = true →
      input.dxDesc.packed = true →
      validateConvTensors input.asConvTensors = .ok () →
      ¬(input.alpha = 1 ∧ input.beta = 0) →
      convolutionBackwardData input cache =
        .error (.notImplemented "Only alpha=1 and beta=0 is supported")) ∧
    (∀ (input : ConvWrwInput) (cache : InvokerCache),
      validateConvTensors input.asConvTensors = .ok () →
      ¬(input.alpha = 1 ∧ input.beta = 0) →
      convolutionBackwardWeights input cache =
        .error (.notImplemented "Only alpha=1 and beta=0 is supported")) ∧
    convolutionForward { fwdInputStd with alpha := 0.999999 } cacheWithFwd =
      .error (.notImplemented "Only alpha=1 and beta=0 is supported") ∧
    convolutionForward fwdInputStd cacheWithFwd = .ok 7 := by
  refine ⟨?_, ?_, ?_, ?_, ?_, ?_⟩
  · intro a b
    by_cases hab : a = 1 ∧ b = 0
    · rw [validateAlphaBeta, if_neg (by simp [floatEqual, hab.1, hab.2])]
      simp [hab]
    · rw [validateAlphaBeta,
        if_pos (show ¬floatEqual a 1 ∨ ¬floatEqual b 0 from not_and_or.mp hab)]
      simp [hab]
  · intro input cache hpx hpw hpy hvt hab
    have hab' : validateAlphaBeta input.alpha input.beta =
        .error (.notImplemented "Only alpha=1 and beta=0 is supported") := by
      rw [validateAlphaBeta, if_pos (show ¬floatEqual input.alpha 1 ∨
        ¬floatEqual input.beta 0 from not_and_or.mp hab)]
    simp only [convolutionForward]
    rw [if_neg (by simp [hpx, hpw, hpy]), hvt, hab']
  · intro input cache hpdy hpw hpdx hvt hab
    have hab' : validateAlphaBeta input.alpha input.beta =
        .error (.notImplemented "Only alpha=1 and beta=0 is supported") := by
      rw [validateAlphaBeta, if_pos (show ¬floatEqual input.alpha 1 ∨
        ¬floatEqual input.beta 0 from not_and_or.mp hab)]
    simp only [convolutionBackwardData]
    rw [if_neg (by simp [hpdy, hpw, hpdx]), hvt, hab']
  · intro input cache hvt hab
    have hab' : validateAlphaBeta input.alpha input.beta =
        .error (.notImplemented "Only alpha=1 and beta=0 is supported") := by
      rw [validateAlphaBeta, if_pos (show ¬floatEqual input.alpha 1 ∨
        ¬floatEqual input.beta 0 from not_and_or.mp hab)]
    simp only [convolutionBackwardWeights]
    rw [hvt, hab']
  · simp only [convolutionForward]
    rw [if_neg (by decide),
      (by decide : validateConvTensors
        ({ fwdInputStd with alpha := 0.999999 } : ConvFwdInput).tensors = .ok ())]
    norm_num [validateAlphaBeta, floatEqual, fwdInputStd]
  · decide

/-- Witness for C7: a forward call with alpha = 2 on otherwise valid
tensors is rejected with the NotImplemented alpha/beta error. -/
theorem alphaBetaValidation_spec_witness :
    convolutionForward { fwdInputStd with alpha := 2 } cacheWithFwd =
      .error (.notImplemented "Only alpha=1 and beta=0 is supported") :=
  alphaBetaValidation_spec.2.1 { fwdInputStd with alpha := 2 } cacheWithFwd
    rfl rfl rfl (by decide) (by decide)

/-! ### C8: packed-tensor checks -/

/-- C8 (amended).  Only `ConvolutionForward` and `ConvolutionBackwardData`
reject unpacked tensors with the NotImplemented "Only fully packed
tensors are supported" error; `ConvolutionBackwardWeights` and the three
`*Immediate` entry points perform no packedness check and proceed on
otherwise valid unpacked inputs (contrary to the claim — see the
counterexample). -/
theorem packedTensorChecks_spec :
    (∀ (input : ConvFwdInput) (cache : InvokerCache),
      ¬(input.tensors.xDesc.packed = true ∧ input.tensors.wDesc.packed = true ∧
          input.tensors.yDesc.packed = true) →
      convolutionForward input cache =
        .error (.notImplemented "Only fully packed tensors are supported")) ∧
    (∀ (input : ConvBwdInput) (cache : InvokerCache),
      ¬(input.dyDesc.packed = true ∧ input.wDesc.packed = true ∧
          input.dxDesc.packed = true) →
      convolutionBackwardData input cache =
        .error (.notImplemented "Only fully packed tensors are supported")) ∧
    convolutionBackwardWeights wrwInputUnpacked cacheWithWrw = .ok 7 ∧
    convolutionForwardImmediate fwdInputUnpacked true (fun _ _ => 5) 9
        (fun _ => "id9") (fun _ => "algo") [] =
      .ok (5, [((0, .bySolver "id9"), 5), ((0, .byAlgo "algo"), 5)]) ∧
    convolutionBackwardImmediate bwdInputUnpacked (fun _ _ => 5) 9
        (fun _ => "id9") (fun _ => "algo") [] =
      .ok (5, [((0, .bySolver "id9"), 5), ((0, .byAlgo "algo"), 5)]) ∧
    convolutionWrwImmediate wrwInputUnpacked (fun _ _ => 5) 9
        (fun _ => "id9") (fun _ => "algo") [] =
      .ok (5, [((0, .bySolver "id9"), 5), ((0, .byAlgo "algo"), 5)]) := by
  refine ⟨?_, ?_, by decide, by decide, by decide, by decide⟩
  · intro input cache h
    simp only [convolutionForward]
    rw [if_pos h]
  · intro input cache h
    simp only [convolutionBackwardData]
    rw [if_pos h]

/-- C8 counterexample to the claim as stated: a backward-weights call with
an unpacked dy tensor (everything else valid) is not rejected — it runs
the registered invoker. -/
theorem packedTensorChecks_counterexample :
    convolutionBackwardWeights wrwInputUnpacked cacheWithWrw = .ok 7 ∧
    wrwInputUnpacked.dyDesc.packed = false := by decide

/-- Witness for C8: a forward call with an unpacked input tensor is
rejected with the packed-tensors NotImplemented error. -/
theorem packedTensorChecks_spec_witness :
    convolutionForward fwdInputUnpacked cacheWithFwd =
      .error (.notImplemented "Only fully packed tensors are supported") :=
  packedTensorChecks_spec.1 fwdInputUnpacked cacheWithFwd (by decide)

/-! ### C9: no registered invoker -/

/-- C9.  For each of the three algorithm-based execution calls: when every
validation passes but the handle's cache holds no invoker under the
problem's (config, algorithm-name) key, the call fails with the distinct
"No invoker was registered ... Was find executed?" error; since the error
is raised instead of invoking, no kernel executes. -/
theorem noInvokerRegistered_spec :
    (∀ (input : ConvFwdInput) (cache : InvokerCache),
      input.tensors.xDesc.packed = true → input.tensors.wDesc.packed = true →
      input.tensors.yDesc.packed = true →
      validateConvTensors input.tensors = .ok () →
      input.alpha = 1 → input.beta = 0 →
      ¬(input.algo ≠ .gemm ∧ input.tensors.xDesc.ty = .int8x4) →
      validateGroupCount input.tensors.xDesc input.tensors.wDesc
        input.groupCount = .ok () →
      cacheLookup cache input.config (.byAlgo input.algoName) = none →
      convolutionForward input cache = .error (.unknown
        "No invoker was registered for convolution forward. Was find executed?")) ∧
    (∀ (input : ConvBwdInput) (cache : InvokerCache),
      input.dyDesc.packed = true → input.wDesc.packed = true →
      input.dxDesc.packed = true →
      validateConvTensors input.asConvTensors = .ok () →
      input.alpha = 1 → input.beta = 0 →
      input.dyDesc.len 1 = input.wDesc.len 0 →
      validateGroupCount input.dxDesc input.wDesc input.groupCount = .ok () →
      cacheLookup cache input.config (.byAlgo input.algoName) = none →
      convolutionBackwardData input cache = .error (.unknown
        "No invoker was registered for convolution backward. Was find executed?")) ∧
    (∀ (input : ConvWrwInput) (cache : InvokerCache),
      validateConvTensors input.asConvTensors = .ok () →
      input.alpha = 1 → input.beta = 0 →
      input.xDesc.ty ≠ .int8 →
      validateGroupCount input.xDesc input.dwDesc input.groupCount = .ok () →
      cacheLookup cache input.config (.byAlgo input.algoName) = none →
      convolutionBackwardWeights input cache = .error (.unknown
        "No invoker was registered for convolution weights. Was find executed?")) := by
  refine ⟨?_, ?_, ?_⟩
  · intro input cache hpx hpw hpy hvt ha hb hint8 hvg hlk
    have hab : validateAlphaBeta input.alpha input.beta = .ok () := by
      rw [validateAlphaBeta, if_neg (show ¬(¬floatEqual input.alpha 1 ∨
        ¬floatEqual input.beta 0) from by simp [floatEqual, ha, hb])]
    simp only [convolutionForward]
    rw [if_neg (by simp [hpx, hpw, hpy]), hvt, hab, if_neg hint8, hvg, hlk]
  · intro input cache hpdy hpw hpdx hvt ha hb hdyw hvg hlk
    have hab : validateAlphaBeta input.alpha input.beta = .ok () := by
      rw [validateAlphaBeta, if_neg (show ¬(¬floatEqual input.alpha 1 ∨
        ¬floatEqual input.beta 0) from by simp [floatEqual, ha, hb])]
    simp only [convolutionBackwardData]
    rw [if_neg (by simp [hpdy, hpw, hpdx]), hvt, hab,
      if_neg (by simp [hdyw]), hvg, hlk]
  · intro input cache hvt ha hb hint8 hvg hlk
    have hab : validateAlphaBeta input.alpha input.beta = .ok () := by
      rw [validateAlphaBeta, if_neg (show ¬(¬floatEqual input.alpha 1 ∨
        ¬floatEqual input.beta 0) from by simp [floatEqual, ha, hb])]
    simp only [convolutionBackwardWeights]
    rw [hvt, hab, if_neg (by simp [hint8]), hvg, hlk]

/-- Witness for C9: a valid forward call against an empty cache fails with
the no-invoker error. -/
theorem noInvokerRegistered_spec_witness :
    convolutionForward fwdInputStd [] = .error (.unknown
      "No invoker was registered for convolution forward. Was find executed?") :=
  noInvokerRegistered_spec.1 fwdInputStd [] rfl rfl rfl (by decide) rfl rfl
    (by decide) (by decide) rfl

/-! ### C10: find-db GetSolutions filtering -/

/-- C10.  Every solution returned by the find-db path of `GetSolutions`
has a valid (registered) solver id, a non-disabled algorithm, an
applicable solver, and stems from a record entry (entries with invalid ids
or disabled algorithms are skipped silently); and because applicability is
filtered only after sorting and truncating to `maxSolutionCount`, the
result can be shorter than `maxSolutionCount` even though further
applicable entries exist in the record — at the concrete instance below
the result is empty although the record holds an applicable, valid,
enabled entry. -/
theorem getSolutionsFindDb_spec :
    (∀ (env : SolverEnv) (record : List FdbEntry) (maxSolutionCount : ℕ),
      ∀ s ∈ getSolutionsFindDb env record maxSolutionCount,
        env.validId s.solution_id = true ∧
        env.algoDisabled s.algorithm = false ∧
        env.applicable s.solution_id = true ∧
        ∃ e ∈ record, s = ⟨e.time, e.workspace, e.solverId, e.algo⟩) ∧
    (getSolutionsFindDb fdbEnvStd fdbRecordStd 1 = [] ∧
      (⟨2, 0, 2, 20⟩ : FdbEntry) ∈ fdbRecordStd ∧
      fdbEnvStd.validId 2 = true ∧ fdbEnvStd.algoDisabled 0 = false ∧
      fdbEnvStd.applicable 2 = true) := by
  refine ⟨?_, by decide, by decide, by decide, by decide, by decide⟩
  intro env record maxSolutionCount s hs
  by_cases hrec : record.isEmpty
  · rw [getSolutionsFindDb, if_pos hrec] at hs
    exact absurd hs (List.not_mem_nil s)
  · simp only [getSolutionsFindDb] at hs
    rw [if_neg hrec] at hs
    rcases List.mem_filter.mp hs with ⟨htake, happ⟩
    have hsort : s ∈ sortSolutions (record.filterMap fun e =>
        if env.algoDisabled e.algo then none
        else if ¬ env.validId e.solverId then none
        else some ⟨e.time, e.workspace, e.solverId, e.algo⟩) :=
      List.take_subset _ _ htake
    have hint := (List.perm_insertionSort solutionNotAfter _).mem_iff.mp hsort
    rcases List.mem_filterMap.mp hint with ⟨e, he, hfe⟩
    split_ifs at hfe with h1 h2
    have hse := Option.some.inj hfe
    subst hse
    exact ⟨by simpa using h2, by simpa using h1, happ, e, he, rfl⟩

/-- Witness for C10: a one-entry record with an all-accepting environment
yields that entry, which therefore satisfies the filter invariants. -/
theorem getSolutionsFindDb_spec_witness :
    (⟨fun _ => true, fun _ => false, fun _ => true⟩ : SolverEnv).validId
        (⟨1, 10, 1, 0⟩ : ConvSolution).solution_id = true ∧
    (⟨fun _ => true, fun _ => false, fun _ => true⟩ : SolverEnv).algoDisabled
        (⟨1, 10, 1, 0⟩ : ConvSolution).algorithm = false ∧
    (⟨fun _ => true, fun _ => false, fun _ => true⟩ : SolverEnv).applicable
        (⟨1, 10, 1, 0⟩ : ConvSolution).solution_id = true ∧
    ∃ e ∈ [(⟨1, 0, 1, 10⟩ : FdbEntry)],
      (⟨1, 10, 1, 0⟩ : ConvSolution) = ⟨e.time, e.workspace, e.solverId, e.algo⟩ :=
  getSolutionsFindDb_spec.1 ⟨fun _ => true, fun _ => false, fun _ => true⟩
    [⟨1, 0, 1, 10⟩] 1 ⟨1, 10, 1, 0⟩ (by decide)

end MIOpen
